import Mathlib

/-!
Verification development for the torchgan tutorial
"Tutorial 5. Adversarial Autoencoder.ipynb".

The notebook defines, on top of the external `torch` / `torchgan`
libraries:

* `AdversarialAutoencoderGenerator`   (encoder / decoder network),
* `AdversarialAutoencoderDiscriminator` (an MLP on latent vectors),
* `AdversarialAutoencoderGeneratorLoss` and
  `AdversarialAutoencoderDiscriminatorLoss` (loss modules with
  `forward` and `train_ops` methods),

and then runs a linear training script.  This file gives a shallow
embedding of those definitions:

* loss formulas act on flat tensors, modelled as `List ℚ`; scalars
  are exact rationals, the usual idealisation of the source's
  floating point arithmetic; the transcendental functions of the
  external library
  (`F.binary_cross_entropy_with_logits` needs `exp` and `log`)
  are taken as explicit function parameters so that every definition
  stays computable;
* the network constructors and their layer-building `while` loops are
  embedded with an explicit fuel-indexed `while` combinator, acting on
  the documented shape semantics of the `torch.nn` layers;
* the loss expression trees of the two `forward` bodies are also
  recorded as a small syntax (`LossExpr`) so that claims about the
  *shape* of a formula ("a weighted sum of an MSE term and a BCE
  term") become decidable;
* `train_ops` is embedded as an explicit state transformer over the
  two parameter vectors and their gradient buffers;
* the top-level script structure of the notebook is recorded as data
  so that claims about statement order and control flow are decidable.
-/

namespace AAE

/-! ## Tensors for the loss formulas

A loss formula only ever consumes flat collections of scalars, so a
tensor is modelled as a `List ℚ` here.  `mean` is sum divided by
length (PyTorch's default `reduction="mean"`). -/

/-- Mean of a list of scalars: sum divided by length. -/
def mean (xs : List ℚ) : ℚ := xs.sum / xs.length

/-- Model of `torch.ones_like`: a tensor of ones with the shape of the argument. -/
def onesLike (xs : List ℚ) : List ℚ := xs.map (fun _ => 1)

/-- Model of `torch.zeros_like`: a tensor of zeros with the shape of the argument. -/
def zerosLike (xs : List ℚ) : List ℚ := xs.map (fun _ => 0)

/-- The logistic sigmoid `1 / (1 + exp (-x))`, with the exponential
function of the external library passed explicitly. -/
def sigmoid (expF : ℚ → ℚ) (x : ℚ) : ℚ := 1 / (1 + expF (-x))

/-- Model of `F.mse_loss input target` with mean reduction: the mean of the
squared differences of corresponding entries. -/
def mse_loss (input target : List ℚ) : ℚ :=
  mean (List.zipWith (fun a b => (a - b) ^ 2) input target)

/-- Per-element binary cross entropy on logits: for a logit `x` and a
target `t`, `-(t * log σ(x) + (1 - t) * log (1 - σ(x)))`. -/
def bceTerm (expF logF : ℚ → ℚ) (x t : ℚ) : ℚ :=
  -(t * logF (sigmoid expF x) + (1 - t) * logF (1 - sigmoid expF x))

/-- Model of `F.binary_cross_entropy_with_logits input target` with mean
reduction. -/
def binary_cross_entropy_with_logits (expF logF : ℚ → ℚ)
    (input target : List ℚ) : ℚ :=
  mean (List.zipWith (bceTerm expF logF) input target)

/-! ## The two loss `forward` bodies

Source, generator loss:
```
def forward(self, real_inputs, gen_inputs, dgz):
    loss = 0.999 * F.mse_loss(gen_inputs, real_inputs)
    target = torch.ones_like(dgz)
    loss += 0.001 * F.binary_cross_entropy_with_logits(dgz, target)
    return loss
```
Source, discriminator loss:
```
def forward(self, dx, dgz):
    target_real = torch.ones_like(dx)
    target_fake = torch.zeros_like(dx)
    loss = 0.5 * F.binary_cross_entropy_with_logits(dx, target_real)
    loss += 0.5 * F.binary_cross_entropy_with_logits(dgz, target_fake)
    return loss
```
-/

/-- Body of `AdversarialAutoencoderGeneratorLoss.forward`. -/
def generatorLossForward (expF logF : ℚ → ℚ)
    (real_inputs gen_inputs dgz : List ℚ) : ℚ :=
  0.999 * mse_loss gen_inputs real_inputs
    + 0.001 * binary_cross_entropy_with_logits expF logF dgz (onesLike dgz)

/-- Body of `AdversarialAutoencoderDiscriminatorLoss.forward`. -/
def discriminatorLossForward (expF logF : ℚ → ℚ)
    (dx dgz : List ℚ) : ℚ :=
  0.5 * binary_cross_entropy_with_logits expF logF dx (onesLike dx)
    + 0.5 * binary_cross_entropy_with_logits expF logF dgz (zerosLike dx)

/-! ## The loss formulas as expression trees

The spec speaks about the *shape* of the two one-line loss formulas
("a weighted sum of a mean-squared-error term and a binary
cross-entropy term").  To make such statements decidable, the bodies
of the two `forward` methods are also recorded as values of a small
expression syntax, together with an evaluator that agrees with the
shallow functions above. -/

/-- Tensor-valued atoms occurring in the two loss `forward` bodies. -/
inductive LTerm : Type
  | realInputsT : LTerm
  | genInputsT : LTerm
  | dgzT : LTerm
  | dxT : LTerm
  | onesLikeT : LTerm → LTerm
  | zerosLikeT : LTerm → LTerm
deriving DecidableEq

/-- Loss expressions: MSE and BCE-with-logits applications, scalar
weights and sums. -/
inductive LossExpr : Type
  | mseE : LTerm → LTerm → LossExpr
  | bceE : LTerm → LTerm → LossExpr
  | smulE : ℚ → LossExpr → LossExpr
  | addE : LossExpr → LossExpr → LossExpr
deriving DecidableEq

/-- The expression computed by
`AdversarialAutoencoderGeneratorLoss.forward`:
`0.999 * mse_loss(gen_inputs, real_inputs)
  + 0.001 * bce_with_logits(dgz, ones_like(dgz))`. -/
def generatorLossExpr : LossExpr :=
  .addE (.smulE 0.999 (.mseE .genInputsT .realInputsT))
    (.smulE 0.001 (.bceE .dgzT (.onesLikeT .dgzT)))

/-- The expression computed by
`AdversarialAutoencoderDiscriminatorLoss.forward`:
`0.5 * bce_with_logits(dx, ones_like(dx))
  + 0.5 * bce_with_logits(dgz, zeros_like(dx))`. -/
def discriminatorLossExpr : LossExpr :=
  .addE (.smulE 0.5 (.bceE .dxT (.onesLikeT .dxT)))
    (.smulE 0.5 (.bceE .dgzT (.zerosLikeT .dxT)))

/-- The environment binding the tensor atoms of a loss body. -/
structure LossEnv : Type where
  realInputs : List ℚ
  genInputs : List ℚ
  dgz : List ℚ
  dx : List ℚ

/-- Evaluation of a tensor atom. -/
def LTerm.evalT (env : LossEnv) : LTerm → List ℚ
  | .realInputsT => env.realInputs
  | .genInputsT => env.genInputs
  | .dgzT => env.dgz
  | .dxT => env.dx
  | .onesLikeT t => onesLike (t.evalT env)
  | .zerosLikeT t => zerosLike (t.evalT env)

/-- Evaluation of a loss expression. -/
def LossExpr.evalE (expF logF : ℚ → ℚ) (env : LossEnv) : LossExpr → ℚ
  | .mseE a b => mse_loss (a.evalT env) (b.evalT env)
  | .bceE a b =>
      binary_cross_entropy_with_logits expF logF (a.evalT env) (b.evalT env)
  | .smulE c e => c * e.evalE expF logF env
  | .addE e1 e2 => e1.evalE expF logF env + e2.evalE expF logF env

/-- Is the expression an MSE application? -/
def LossExpr.isMse : LossExpr → Bool
  | .mseE _ _ => true
  | _ => false

/-- Is the expression a BCE-with-logits application? -/
def LossExpr.isBce : LossExpr → Bool
  | .bceE _ _ => true
  | _ => false

/-- Strip the scalar weights off the head of an expression. -/
def LossExpr.stripWeight : LossExpr → LossExpr
  | .smulE _ e => e.stripWeight
  | e => e

/-- The spec phrase "a one-line weighted sum of a standard mean-squared-error term and
a standard binary cross-entropy term": a sum of two weighted terms,
one an MSE application and the other a BCE application. -/
def isWeightedSumOfMseAndBce : LossExpr → Bool
  | .addE t1 t2 =>
      (t1.stripWeight.isMse && t2.stripWeight.isBce)
        || (t1.stripWeight.isBce && t2.stripWeight.isMse)
  | _ => false

/-- The spec phrase "a one-line weighted sum of two binary cross-entropy terms". -/
def isWeightedSumOfTwoBce : LossExpr → Bool
  | .addE t1 t2 => t1.stripWeight.isBce && t2.stripWeight.isBce
  | _ => false

/-! ## Shape semantics of the `torch.nn` layers

The network claims are about tensor shapes (which layers apply, and
what shape comes out), so layers are embedded by their documented
shape semantics.  A shape is the list of dimension sizes; applying a
layer to a shape it does not accept is `none` (the external library
raises). -/

/-- A tensor shape: the list of dimension sizes. -/
abbrev Shape : Type := List ℕ

/-- Output spatial dimension of `nn.Conv2d` with kernel `k`, stride
`s`, padding `p` on input dimension `n`: `(n + 2p - k) / s + 1`
(floor division). -/
def conv2dOut (k s p n : ℕ) : ℕ := (n + 2 * p - k) / s + 1

/-- Output spatial dimension of `nn.ConvTranspose2d` with kernel `k`,
stride `s`, padding `p`, output padding `op` on input dimension `n`:
`(n - 1) * s - 2p + k + op`, written with the subtraction of `2p`
last so the natural-number computation matches the integer one
whenever the result is non-negative. -/
def convT2dOut (k s p op n : ℕ) : ℕ := (n - 1) * s + k + op - 2 * p

/-- The `torch.nn` layers used by the notebook.  The
`nn.Sequential` wrappers of the source are flattened: a `Sequential`
of layers acts as their composition, so a network is a `List Layer`. -/
inductive Layer : Type
  | conv2d : (inC outC k s p : ℕ) → Layer
  | convTranspose2d : (inC outC k s p op : ℕ) → Layer
  | batchNorm2d : (features : ℕ) → Layer
  | batchNorm1d : (features : ℕ) → Layer
  | leakyReLU : Layer
  | linear : (inF outF : ℕ) → Layer
deriving DecidableEq

/-- Shape semantics of one layer.  Channel/feature mismatches and
kernels larger than the padded input are rejected (`none`), as the
external library raises on them. -/
def Layer.apply : Layer → Shape → Option Shape
  | .conv2d inC outC k s p, [n, c, h, w] =>
      if c = inC ∧ k ≤ h + 2 * p ∧ k ≤ w + 2 * p ∧ 0 < s then
        some [n, outC, conv2dOut k s p h, conv2dOut k s p w]
      else none
  | .convTranspose2d inC outC k s p op, [n, c, h, w] =>
      if c = inC ∧ 0 < h ∧ 0 < w ∧ 2 * p ≤ (h - 1) * s + k + op
          ∧ 2 * p ≤ (w - 1) * s + k + op then
        some [n, outC, convT2dOut k s p op h, convT2dOut k s p op w]
      else none
  | .batchNorm2d f, [n, c, h, w] =>
      if c = f then some [n, c, h, w] else none
  | .batchNorm1d f, [n, c] =>
      if c = f then some [n, c] else none
  | .leakyReLU, sh => some sh
  | .linear inF outF, [n, c] =>
      if c = inF then some [n, outF] else none
  | _, _ => none

/-- Applying a list of layers in order (`nn.Sequential`). -/
def applySeq (layers : List Layer) (sh : Shape) : Option Shape :=
  layers.foldl (fun acc l => acc.bind l.apply) (some sh)

/-- Number of elements of a tensor of the given shape. -/
def numel (sh : Shape) : ℕ := sh.prod

/-- Semantics of `t.view(-1, k)`: reshape to two dimensions, the first inferred as
`numel / k`; requires `k` positive and dividing the element count. -/
def view2 (k : ℕ) (sh : Shape) : Option Shape :=
  if 0 < k ∧ k ∣ numel sh then some [numel sh / k, k] else none

/-- Semantics of `t.view(-1, c, 1, 1)`: reshape to four dimensions, the first
inferred as `numel / c`. -/
def view4 (c : ℕ) (sh : Shape) : Option Shape :=
  if 0 < c ∧ c ∣ numel sh then some [numel sh / c, c, 1, 1] else none

/-- Semantics of `t.size(1)`: the second entry of the shape. -/
def size1 (sh : Shape) : Option ℕ := sh.get? 1

/-! ## The layer-building `while` loops

Each constructor builds its layer list with a `while` loop.  A
`while` loop carries no termination argument in the source, so it is
embedded with an explicit fuel: `none` means the fuel ran out before
the loop exited.  Termination claims become fuel-sufficiency
theorems. -/

/-- Fuel-indexed `while cond: s = body(s)` loop. -/
def whileFuel {σ : Type} (cond : σ → Bool) (body : σ → σ) : ℕ → σ → Option σ
  | 0, s => if cond s then none else some s
  | fuel + 1, s => if cond s then whileFuel cond body fuel (body s) else some s

/-- State of a layer-building loop: the loop variables `size` and
`channels` and the accumulated layer list. -/
structure BuildSt : Type where
  size : ℕ
  channels : ℕ
  layers : List Layer
deriving DecidableEq

/-- Guard of the encoder loop: `while size > 1`. -/
def encCond (s : BuildSt) : Bool := 1 < s.size

/-- Body of the encoder loop: append
`Conv2d(channels, channels*4, 5, 4, 2), BatchNorm2d(channels*4),
nonlinearity`, then `channels *= 4; size = size // 4`. -/
def encBody (s : BuildSt) : BuildSt :=
  { size := s.size / 4
    channels := s.channels * 4
    layers := s.layers ++
      [.conv2d s.channels (s.channels * 4) 5 4 2,
       .batchNorm2d (s.channels * 4), .leakyReLU] }

/-- Guard of the decoder loop: `while size < input_size // 2`. -/
def decCond (input_size : ℕ) (s : BuildSt) : Bool := s.size < input_size / 2

/-- Body of the decoder loop: append
`ConvTranspose2d(channels, channels*4, 5, 4, 2, 3),
BatchNorm2d(channels*4), nonlinearity`, then
`channels *= 4; size *= 4`. -/
def decBody (s : BuildSt) : BuildSt :=
  { size := s.size * 4
    channels := s.channels * 4
    layers := s.layers ++
      [.convTranspose2d s.channels (s.channels * 4) 5 4 2 3,
       .batchNorm2d (s.channels * 4), .leakyReLU] }

/-! ## `AdversarialAutoencoderGenerator` -/

/-- The generator object: the submodules set by the constructor.
`encoder` and `decoder` are the flattened `nn.Sequential` layer
lists; `encoder_fc` and `decoder_fc` are the two `nn.Linear`
layers. -/
structure AdversarialAutoencoderGenerator : Type where
  encoding_dims : ℕ
  encoder : List Layer
  encoder_fc : Layer
  decoder_fc : Layer
  decoder : List Layer
deriving DecidableEq

/-- The generator constructor.  Encoder: a first
`Conv2d(input_channels, step_channels, 5, 2, 2)` block, then the
encoder loop from `size = input_size // 2`; `encoder_fc` is
`Linear(channels, encoding_dims)` with the loop's final channel
count.  Decoder: `decoder_fc = Linear(encoding_dims, step_channels)`,
the decoder loop from `size = 1`, and a final
`ConvTranspose2d(channels, input_channels, 5, 2, 2, 1)`.  Both loops
are run with fuel `input_size`, which is enough
(`mkGenerator_isSome`). -/
def mkGenerator (encoding_dims input_size input_channels step_channels : ℕ) :
    Option AdversarialAutoencoderGenerator :=
  (whileFuel encCond encBody input_size
      { size := input_size / 2
        channels := step_channels
        layers := [.conv2d input_channels step_channels 5 2 2, .leakyReLU] }).bind
    fun encSt =>
  (whileFuel (decCond input_size) decBody input_size
      { size := 1, channels := step_channels, layers := [] }).map
    fun decSt =>
  { encoding_dims := encoding_dims
    encoder := encSt.layers
    encoder_fc := .linear encSt.channels encoding_dims
    decoder_fc := .linear encoding_dims step_channels
    decoder := decSt.layers ++
      [.convTranspose2d decSt.channels input_channels 5 2 2 1] }

/-- Method `AdversarialAutoencoderGenerator.sample`: feed the noise through
`decoder_fc`, reshape with `view(-1, size(1), 1, 1)`, and run the
decoder. -/
def AdversarialAutoencoderGenerator.sample
    (g : AdversarialAutoencoderGenerator) (noise : Shape) : Option Shape :=
  (g.decoder_fc.apply noise).bind fun h =>
  (size1 h).bind fun c =>
  (view4 c h).bind fun h4 =>
  applySeq g.decoder h4

/-- Result of `AdversarialAutoencoderGenerator.forward`: a single
tensor in evaluation mode, a (reconstruction, encoding) pair in
training mode. -/
inductive ForwardResult : Type
  | single : Shape → ForwardResult
  | pair : (reconstruction encoding : Shape) → ForwardResult
deriving DecidableEq

/-- Method `AdversarialAutoencoderGenerator.forward`.  In training mode:
run the encoder, flatten with
`view(-1, size(1) * size(2) * size(3))`, apply `encoder_fc`, and
return `(sample(encoding), encoding)`.  Otherwise return
`sample(x)`. -/
def AdversarialAutoencoderGenerator.forward
    (g : AdversarialAutoencoderGenerator) (training : Bool) (x : Shape) :
    Option ForwardResult :=
  if training then
    (applySeq g.encoder x).bind fun e =>
    (match e with
     | [_, c1, c2, c3] => some (c1 * c2 * c3)
     | _ => none).bind fun k =>
    (view2 k e).bind fun e2 =>
    (g.encoder_fc.apply e2).bind fun encoding =>
    (g.sample encoding).map fun recon => ForwardResult.pair recon encoding
  else
    (g.sample x).map fun out => ForwardResult.single out

/-! ## `AdversarialAutoencoderDiscriminator` -/

/-- State of the discriminator's layer-building loop. -/
structure DiscSt : Type where
  size : ℕ
  layers : List Layer
deriving DecidableEq

/-- Guard of the discriminator loop: `while size > 16`. -/
def discCond (s : DiscSt) : Bool := 16 < s.size

/-- Body of the discriminator loop: append
`Linear(size, size // 2), BatchNorm1d(size // 2), nonlinearity`, then
`size = size // 2`. -/
def discBody (s : DiscSt) : DiscSt :=
  { size := s.size / 2
    layers := s.layers ++
      [.linear s.size (s.size / 2), .batchNorm1d (s.size / 2), .leakyReLU] }

/-- The discriminator object. -/
structure AdversarialAutoencoderDiscriminator : Type where
  input_dims : ℕ
  model : List Layer
deriving DecidableEq

/-- The discriminator constructor: a first
`Linear(input_dims, input_dims // 2)` block, the halving loop from
`size = input_dims // 2`, and a final `Linear(size, 1)`.  The loop is
run with fuel `input_dims`, which is enough
(`mkDiscriminator_isSome`). -/
def mkDiscriminator (input_dims : ℕ) :
    Option AdversarialAutoencoderDiscriminator :=
  (whileFuel discCond discBody input_dims
      { size := input_dims / 2
        layers := [.linear input_dims (input_dims / 2), .leakyReLU] }).map
    fun st =>
  { input_dims := input_dims
    model := st.layers ++ [.linear st.size 1] }

/-- Method `AdversarialAutoencoderDiscriminator.forward`: `self.model(x)`. -/
def AdversarialAutoencoderDiscriminator.forward
    (d : AdversarialAutoencoderDiscriminator) (x : Shape) : Option Shape :=
  applySeq d.model x

/-- Is the layer one of the MLP layers (affine, `BatchNorm1d`,
`LeakyReLU`)? -/
def isMLPLayer : Layer → Bool
  | .linear _ _ => true
  | .batchNorm1d _ => true
  | .leakyReLU => true
  | _ => false

/-- Does the layer list end in a `Linear` layer of output dimension
1? -/
def endsInLinear1 (ls : List Layer) : Bool :=
  match ls.getLast? with
  | some (.linear _ 1) => true
  | _ => false

/-! ## The `train_ops` methods as state transformers

A `train_ops` call mutates four buffers: the two models' parameter
vectors and their gradient buffers.  The external operations —
autograd (`loss.backward()` accumulates gradients into the buffers of
every parameter the loss depends on) and the Adam update
(`optimizer.step()` maps a parameter vector and its gradient buffer
to the new parameter vector) — are taken as function parameters.
An optimizer holds exactly the parameters of its own model (the
`Trainer` builds `Adam(model.parameters())` from the `network`
dictionary), so `zero_grad` clears, and `step` updates, only that
model's buffers.  Note that in *both* `train_ops` the backward pass
accumulates gradients into both models' buffers: the generator loss
depends on the discriminator through `dgz`, and the discriminator
loss depends on the generator through `encodings`. -/

/-- The mutable training state: parameter vectors and gradient
buffers of the two models. -/
structure TrainState : Type where
  genParams : List ℚ
  genGrads : List ℚ
  discParams : List ℚ
  discGrads : List ℚ
deriving DecidableEq

/-- Elementwise sum, for gradient accumulation. -/
def addG (a b : List ℚ) : List ℚ := List.zipWith (fun x y => x + y) a b

/-- Method `AdversarialAutoencoderGeneratorLoss.train_ops`:
forward passes (pure), `optimizer_generator.zero_grad()`,
`loss.backward()`, `optimizer_generator.step()`, `return loss.item()`.
`gGrad` and `dGrad` give the gradients of the loss with respect to
the two parameter vectors (the batch is folded into them), `adam`
is the optimizer update and `lossVal` the loss value. -/
def generatorLoss_train_ops
    (gGrad dGrad : List ℚ → List ℚ → List ℚ)
    (adam : List ℚ → List ℚ → List ℚ)
    (lossVal : List ℚ → List ℚ → ℚ)
    (s : TrainState) : TrainState × ℚ :=
  let s1 : TrainState := { s with genGrads := zerosLike s.genGrads }
  let s2 : TrainState :=
    { s1 with
      genGrads := addG s1.genGrads (gGrad s.genParams s.discParams)
      discGrads := addG s1.discGrads (dGrad s.genParams s.discParams) }
  let s3 : TrainState := { s2 with genParams := adam s2.genParams s2.genGrads }
  (s3, lossVal s.genParams s.discParams)

/-- Method `AdversarialAutoencoderDiscriminatorLoss.train_ops`:
forward passes (pure), `optimizer_discriminator.zero_grad()`,
`loss.backward()`, `optimizer_discriminator.step()`,
`return loss.item()`. -/
def discriminatorLoss_train_ops
    (gGrad dGrad : List ℚ → List ℚ → List ℚ)
    (adam : List ℚ → List ℚ → List ℚ)
    (lossVal : List ℚ → List ℚ → ℚ)
    (s : TrainState) : TrainState × ℚ :=
  let s1 : TrainState := { s with discGrads := zerosLike s.discGrads }
  let s2 : TrainState :=
    { s1 with
      genGrads := addG s1.genGrads (gGrad s.genParams s.discParams)
      discGrads := addG s1.discGrads (dGrad s.genParams s.discParams) }
  let s3 : TrainState :=
    { s2 with discParams := adam s2.discParams s2.discGrads }
  (s3, lossVal s.genParams s.discParams)

/-! ## The notebook as a script

The remaining claims are about the top-level structure of the
notebook: which statements it runs, in which order, and which of them
contain control flow or exception handling.  The code cells are
transcribed, in order, as a list of `ScriptStep`s carrying the
syntactic facts the claims mention; the defined classes and functions
are transcribed alongside. -/

/-- The kinds of top-level steps of the notebook, in the vocabulary
of the spec. -/
inductive StepKind : Type
  | importGuard : StepKind      -- `try: import torchgan except ImportError: pip install`
  | libraryImports : StepKind   -- the import block
  | seedSetup : StepKind        -- `random.seed`, `torch.manual_seed`
  | datasetConstruct : StepKind -- `dsets.MNIST(...)`
  | loaderConstruct : StepKind  -- `data.DataLoader(dataset, ...)`
  | modelClassDef : StepKind    -- `class AdversarialAutoencoder{Generator,Discriminator}`
  | lossClassDef : StepKind     -- the two loss classes and the `losses` list
  | networkDict : StepKind      -- the `network` specification dictionary
  | deviceSelect : StepKind     -- `if torch.cuda.is_available(): ... else: ...`
  | trainerConstruct : StepKind -- `trainer = Trainer(network, losses, ...)`
  | trainerCall : StepKind      -- `trainer(loader)`
  | plotStep : StepKind         -- the two plotting cells
deriving DecidableEq

/-- One top-level step with the syntactic facts the claims are
about. -/
structure ScriptStep : Type where
  kind : StepKind
  hasTry : Bool    -- contains a `try`/`except` statement
  hasRaise : Bool  -- contains a `raise` statement
  hasIf : Bool     -- contains an `if`/`else` statement
  hasLoop : Bool   -- contains a `while`/`for` loop or a comprehension
deriving DecidableEq

/-- The notebook's code cells, in execution order. -/
def notebookScript : List ScriptStep :=
  [⟨.importGuard, true, false, false, false⟩,
   ⟨.libraryImports, false, false, false, false⟩,
   ⟨.seedSetup, false, false, false, false⟩,
   ⟨.datasetConstruct, false, false, false, false⟩,
   ⟨.loaderConstruct, false, false, false, false⟩,
   ⟨.modelClassDef, false, false, true, true⟩,
   ⟨.modelClassDef, false, false, false, true⟩,
   ⟨.lossClassDef, false, false, false, false⟩,
   ⟨.networkDict, false, false, false, false⟩,
   ⟨.deviceSelect, false, false, true, false⟩,
   ⟨.trainerConstruct, false, false, false, false⟩,
   ⟨.trainerCall, false, false, false, false⟩,
   ⟨.plotStep, false, false, false, false⟩,
   ⟨.plotStep, false, false, false, true⟩]

/-- The functions (methods) defined by the notebook's classes. -/
inductive NotebookFn : Type
  | generatorInit : NotebookFn
  | generatorSample : NotebookFn
  | generatorForward : NotebookFn
  | discriminatorInit : NotebookFn
  | discriminatorForward : NotebookFn
  | generatorLossForwardFn : NotebookFn
  | generatorLossTrainOps : NotebookFn
  | discriminatorLossForwardFn : NotebookFn
  | discriminatorLossTrainOps : NotebookFn
deriving DecidableEq

/-- A function defined in the notebook, with the syntactic facts the
error-handling claim is about. -/
structure DefinedFn : Type where
  fn : NotebookFn
  hasTry : Bool
  hasRaise : Bool
deriving DecidableEq

/-- All functions defined in the notebook: none of their bodies
contains a `try` or a `raise` statement. -/
def notebookDefinedFns : List DefinedFn :=
  [⟨.generatorInit, false, false⟩,
   ⟨.generatorSample, false, false⟩,
   ⟨.generatorForward, false, false⟩,
   ⟨.discriminatorInit, false, false⟩,
   ⟨.discriminatorForward, false, false⟩,
   ⟨.generatorLossForwardFn, false, false⟩,
   ⟨.generatorLossTrainOps, false, false⟩,
   ⟨.discriminatorLossForwardFn, false, false⟩,
   ⟨.discriminatorLossTrainOps, false, false⟩]

/-- The base classes the notebook's four classes extend. -/
inductive ClassBase : Type
  | torchganModelsGenerator : ClassBase
  | torchganModelsDiscriminator : ClassBase
  | torchganLossesGeneratorLoss : ClassBase
  | torchganLossesDiscriminatorLoss : ClassBase
deriving DecidableEq

/-- Is the base class an exception type?  All four bases are
framework model/loss classes. -/
def ClassBase.isExceptionType : ClassBase → Bool
  | _ => false

/-- A class defined in the notebook. -/
structure DefinedClass : Type where
  base : ClassBase
deriving DecidableEq

/-- The four classes defined in the notebook, with their bases. -/
def notebookDefinedClasses : List DefinedClass :=
  [⟨.torchganModelsGenerator⟩,
   ⟨.torchganModelsDiscriminator⟩,
   ⟨.torchganLossesGeneratorLoss⟩,
   ⟨.torchganLossesDiscriminatorLoss⟩]

/-- The spec phrase "defines no original error taxonomy": no defined class extends an
exception type. -/
def noErrorTaxonomy : Bool :=
  notebookDefinedClasses.all fun c => !c.base.isExceptionType

/-- The spec phrase "no class or function defined in the notebook raises an exception
of its own or catches one." -/
def definedFnsRaiseCatchFree : Bool :=
  notebookDefinedFns.all fun f => !f.hasTry && !f.hasRaise

/-- The spec phrase "every failure propagates unchanged": no top-level step catches
an exception. -/
def scriptCatchFree : Bool :=
  notebookScript.all fun st => !st.hasTry

/-- A step free of any control flow. -/
def stepControlFlowFree (st : ScriptStep) : Bool :=
  !st.hasTry && !st.hasIf && !st.hasLoop

/-- Position of a step kind in the order claimed by the spec
("load data → define two model classes → define two loss classes →
configure a dictionary → call a trainer → plot"); `none` for steps
the claimed order does not mention. -/
def stepRank : StepKind → Option ℕ
  | .datasetConstruct => some 0
  | .loaderConstruct => some 1
  | .modelClassDef => some 2
  | .lossClassDef => some 3
  | .networkDict => some 4
  | .trainerConstruct => some 5
  | .trainerCall => some 6
  | .plotStep => some 7
  | _ => none

/-- Is a list of naturals nondecreasing? -/
def sortedLeB : List ℕ → Bool
  | [] => true
  | [_] => true
  | a :: b :: rest => decide (a ≤ b) && sortedLeB (b :: rest)

/-- The steps the claimed order mentions occur in the claimed
order. -/
def scriptOrdered : Bool :=
  sortedLeB (notebookScript.filterMap fun st => stepRank st.kind)

/-- The trainer is called exactly once. -/
def trainerCalledOnce : Bool :=
  decide ((notebookScript.filter fun st =>
    decide (st.kind = StepKind.trainerCall)).length = 1)

/-- Control flow occurs only in the model class definitions (whose
layer-building loops the claim excepts). -/
def controlFlowOnlyInModelClasses : Bool :=
  notebookScript.all fun st =>
    decide (st.kind = StepKind.modelClassDef) || stepControlFlowFree st

/-! ## Helper lemmas -/

/-- Lemma: `zipWith` against a constant-mapped list of the same length is a
`map`. -/
theorem zipWith_map_const (f : ℚ → ℚ → ℚ) (c : ℚ) (a : List ℚ) :
    ∀ (b : List ℚ), a.length = b.length →
      List.zipWith f a (b.map fun _ => c) = a.map fun x => f x c := by
  induction a with
  | nil => intro b _; simp
  | cons x xs ih =>
    intro b h
    cases b with
    | nil => simp at h
    | cons y ys =>
      simp only [List.map_cons, List.zipWith_cons_cons]
      rw [ih ys (by simpa using h)]

/-- Lemma: `zipWith` over two lists of the same length, written as a map
over the index range. -/
theorem zipWith_eq_map_range (f : ℚ → ℚ → ℚ) (a : List ℚ) :
    ∀ (b : List ℚ), a.length = b.length →
      List.zipWith f a b
        = (List.range a.length).map fun i => f (a.getD i 0) (b.getD i 0) := by
  induction a with
  | nil => intro b _; simp
  | cons x xs ih =>
    intro b h
    cases b with
    | nil => simp at h
    | cons y ys =>
      have hl : xs.length = ys.length := by simpa using h
      simp only [List.length_cons, List.range_succ_eq_map, List.map_cons,
        List.map_map, List.zipWith_cons_cons, List.getD_cons_zero]
      rw [ih ys hl]
      congr 1

/-- Per-element BCE with target 1 is the negative log of the
sigmoid. -/
theorem bceTerm_one (expF logF : ℚ → ℚ) (x : ℚ) :
    bceTerm expF logF x 1 = -(logF (sigmoid expF x)) := by
  simp [bceTerm]

/-- Per-element BCE with target 0 is the negative log of one minus
the sigmoid. -/
theorem bceTerm_zero (expF logF : ℚ → ℚ) (x : ℚ) :
    bceTerm expF logF x 0 = -(logF (1 - sigmoid expF x)) := by
  simp [bceTerm]

/-- The generator loss expression tree evaluates to exactly the value
of the shallow `generatorLossForward`, for every environment: the
tree is a faithful record of the source line. -/
theorem generatorLossExpr_evalE (expF logF : ℚ → ℚ) (env : LossEnv) :
    generatorLossExpr.evalE expF logF env
      = generatorLossForward expF logF env.realInputs env.genInputs env.dgz := rfl

/-- The discriminator loss expression tree evaluates to exactly the
value of the shallow `discriminatorLossForward`, for every
environment. -/
theorem discriminatorLossExpr_evalE (expF logF : ℚ → ℚ) (env : LossEnv) :
    discriminatorLossExpr.evalE expF logF env
      = discriminatorLossForward expF logF env.dx env.dgz := rfl

/-- Fuel sufficiency for `whileFuel`: if an invariant is preserved by
the body and a measure strictly decreases on every iteration, any
fuel at least the initial measure makes the loop exit. -/
theorem whileFuel_isSome {σ : Type} (cond : σ → Bool) (body : σ → σ)
    (I : σ → Prop) (μ : σ → ℕ)
    (hI : ∀ s, I s → cond s = true → I (body s))
    (hμ : ∀ s, I s → cond s = true → μ (body s) < μ s) :
    ∀ (fuel : ℕ) (s : σ), I s → μ s ≤ fuel →
      (whileFuel cond body fuel s).isSome := by
  intro fuel
  induction fuel with
  | zero =>
    intro s hs hle
    cases hc : cond s with
    | false => simp [whileFuel, hc]
    | true =>
      have h2 := hμ s hs hc
      omega
  | succ n ih =>
    intro s hs hle
    cases hc : cond s with
    | false => simp [whileFuel, hc]
    | true =>
      have hlt := hμ s hs hc
      have h3 := ih (body s) (hI s hs hc) (by omega)
      simpa [whileFuel, hc] using h3

/-- An invariant preserved by the body holds at the loop's result,
and the guard fails there. -/
theorem whileFuel_inv {σ : Type} (cond : σ → Bool) (body : σ → σ)
    (P : σ → Prop) (hP : ∀ s, cond s = true → P s → P (body s)) :
    ∀ (fuel : ℕ) (s t : σ), P s → whileFuel cond body fuel s = some t →
      P t ∧ cond t = false := by
  intro fuel
  induction fuel with
  | zero =>
    intro s t hs heq
    cases hc : cond s with
    | false =>
      simp [whileFuel, hc] at heq
      exact ⟨heq ▸ hs, heq ▸ hc⟩
    | true => simp [whileFuel, hc] at heq
  | succ n ih =>
    intro s t hs heq
    cases hc : cond s with
    | false =>
      simp [whileFuel, hc] at heq
      exact ⟨heq ▸ hs, heq ▸ hc⟩
    | true =>
      exact ih (body s) t (hP s hc hs) (by simpa [whileFuel, hc] using heq)

/-! ## The claims -/

/-- C1: for every real input batch, reconstruction batch of the same
shape, and discriminator logits `dgz`,
`AdversarialAutoencoderGeneratorLoss.forward` returns the weighted
sum `0.999 * mse_loss(gen_inputs, real_inputs) + 0.001 *
binary_cross_entropy_with_logits(dgz, ones_like(dgz))`, where the MSE
term is the mean over the index range of the squared entry
differences and the BCE term against an all-ones target is the mean
of the negative log-sigmoids of the logits. -/
theorem generatorLossForward_is_weighted_mse_bce
    (expF logF : ℚ → ℚ) (real_inputs gen_inputs dgz : List ℚ)
    (hlen : gen_inputs.length = real_inputs.length) :
    generatorLossForward expF logF real_inputs gen_inputs dgz
      = 0.999 * (((List.range real_inputs.length).map fun i =>
            (gen_inputs.getD i 0 - real_inputs.getD i 0) ^ 2).sum
          / real_inputs.length)
        + 0.001 * ((dgz.map fun x => -(logF (sigmoid expF x))).sum
          / dgz.length) := by
  unfold generatorLossForward mse_loss binary_cross_entropy_with_logits mean
    onesLike
  rw [zipWith_eq_map_range _ _ _ hlen, zipWith_map_const _ _ _ _ rfl]
  simp [bceTerm_one, hlen]

/-- Witness for C1 at a concrete input. -/
theorem generatorLossForward_is_weighted_mse_bce_witness :
    ([(3 : ℚ), 5].length = [(1 : ℚ), 2].length)
      ∧ generatorLossForward id id [1, 2] [3, 5] [4]
        = 0.999 * (((List.range ([(1 : ℚ), 2].length)).map fun i =>
              ([(3 : ℚ), 5].getD i 0 - [(1 : ℚ), 2].getD i 0) ^ 2).sum
            / ([(1 : ℚ), 2].length))
          + 0.001 * (([(4 : ℚ)].map fun x => -(id (sigmoid id x))).sum
            / ([(4 : ℚ)].length)) :=
  ⟨rfl, generatorLossForward_is_weighted_mse_bce id id [1, 2] [3, 5] [4] rfl⟩

/-- C2 counterexample: the body of
`AdversarialAutoencoderDiscriminatorLoss.forward` is *not* a weighted
sum of a mean-squared-error term and a binary cross-entropy term —
it contains no MSE term at all (its two weighted summands are both
BCE applications, see `discriminatorLossExpr` and its evaluation
theorem `discriminatorLossExpr_evalE`). -/
theorem discriminatorLoss_not_mse_bce_sum :
    isWeightedSumOfMseAndBce discriminatorLossExpr = false := by decide

/-- C2 amended: for every pair of equal-shape logit tensors `dx` and
`dgz`, `AdversarialAutoencoderDiscriminatorLoss.forward` computes a
one-line weighted sum of two standard binary cross-entropy terms:
`0.5 * bce_with_logits(dx, ones_like(dx)) + 0.5 *
bce_with_logits(dgz, zeros_like(dx))`. -/
theorem discriminatorLossForward_is_two_bce
    (expF logF : ℚ → ℚ) (dx dgz : List ℚ) (hlen : dx.length = dgz.length) :
    discriminatorLossForward expF logF dx dgz
      = 0.5 * ((dx.map fun x => -(logF (sigmoid expF x))).sum / dx.length)
        + 0.5 * ((dgz.map fun x => -(logF (1 - sigmoid expF x))).sum
          / dgz.length)
      ∧ isWeightedSumOfTwoBce discriminatorLossExpr = true := by
  constructor
  · unfold discriminatorLossForward binary_cross_entropy_with_logits mean
      onesLike zerosLike
    rw [zipWith_map_const _ _ _ _ rfl, zipWith_map_const _ _ _ _ hlen.symm]
    simp [bceTerm_one, bceTerm_zero]
  · decide

/-- Witness for the amended C2 at a concrete input. -/
theorem discriminatorLossForward_is_two_bce_witness :
    ([(2 : ℚ)].length = [(7 : ℚ)].length)
      ∧ (discriminatorLossForward id id [2] [7]
          = 0.5 * (([(2 : ℚ)].map fun x => -(id (sigmoid id x))).sum
            / ([(2 : ℚ)].length))
            + 0.5 * (([(7 : ℚ)].map fun x => -(id (1 - sigmoid id x))).sum
              / ([(7 : ℚ)].length))
          ∧ isWeightedSumOfTwoBce discriminatorLossExpr = true) :=
  ⟨rfl, discriminatorLossForward_is_two_bce id id [2] [7] rfl⟩

/-- C4: in evaluation mode, `AdversarialAutoencoderGenerator.forward`
treats its argument as a latent noise tensor: it returns only
`sample(x)`, wrapped as a single tensor rather than a pair, and the
result does not depend on the `encoder` and `encoder_fc` submodules
at all (replacing them changes nothing). -/
theorem generator_forward_eval_mode
    (g : AdversarialAutoencoderGenerator) (x : Shape)
    (e : List Layer) (efc : Layer) :
    g.forward false x = (g.sample x).map ForwardResult.single
      ∧ AdversarialAutoencoderGenerator.forward
          { g with encoder := e, encoder_fc := efc } false x
        = g.forward false x :=
  ⟨rfl, rfl⟩

/-- C5: the three layer-building `while` loops terminate: with fuel
`input_size` (resp. `input_dims`) the encoder loop
(`size = input_size // 2`, quartered while `size > 1`), the decoder
loop (`size = 1`, quadrupled while `size < input_size // 2`) and the
discriminator loop (`size = input_dims // 2`, halved while
`size > 16`) all exit, so both constructors produce their fixed
finite layer lists. -/
theorem constructor_loops_terminate
    (encoding_dims input_size input_channels step_channels input_dims : ℕ)
    (h1 : 2 ≤ input_size) (h2 : 1 ≤ input_dims) :
    (mkGenerator encoding_dims input_size input_channels step_channels).isSome
      ∧ (mkDiscriminator input_dims).isSome := by
  have henc : (whileFuel encCond encBody input_size
      { size := input_size / 2
        channels := step_channels
        layers := [.conv2d input_channels step_channels 5 2 2,
          .leakyReLU] }).isSome := by
    refine whileFuel_isSome encCond encBody (fun _ => True) BuildSt.size
      ?_ ?_ input_size _ trivial (Nat.div_le_self _ _)
    · intro s _ _; trivial
    · intro s _ hc
      have hs : 1 < s.size := by simpa [encCond] using hc
      exact Nat.div_lt_self (by omega) (by omega)
  have hdec : (whileFuel (decCond input_size) decBody input_size
      { size := 1, channels := step_channels, layers := [] }).isSome := by
    refine whileFuel_isSome (decCond input_size) decBody
      (fun s => 1 ≤ s.size) (fun s => input_size / 2 - s.size)
      ?_ ?_ input_size _ (by show 1 ≤ 1; omega)
      (by show input_size / 2 - 1 ≤ input_size; omega)
    · intro s hs hc
      simp only [decBody]
      omega
    · intro s hs hc
      have h : s.size < input_size / 2 := by simpa [decCond] using hc
      simp only [decBody]
      omega
  have hdisc : (whileFuel discCond discBody input_dims
      { size := input_dims / 2
        layers := [.linear input_dims (input_dims / 2),
          .leakyReLU] }).isSome := by
    refine whileFuel_isSome discCond discBody (fun _ => True) DiscSt.size
      ?_ ?_ input_dims _ trivial (Nat.div_le_self _ _)
    · intro s _ _; trivial
    · intro s _ hc
      have hs : 16 < s.size := by simpa [discCond] using hc
      exact Nat.div_lt_self (by omega) (by omega)
  obtain ⟨encSt, hEnc⟩ := Option.isSome_iff_exists.mp henc
  obtain ⟨decSt, hDec⟩ := Option.isSome_iff_exists.mp hdec
  obtain ⟨discSt, hDisc⟩ := Option.isSome_iff_exists.mp hdisc
  constructor
  · simp [mkGenerator, hEnc, hDec]
  · simp [mkDiscriminator, hDisc]

/-- Witness for C5 at the notebook's configuration. -/
theorem constructor_loops_terminate_witness :
    (2 ≤ 32) ∧ (1 ≤ 128)
      ∧ ((mkGenerator 128 32 1 16).isSome ∧ (mkDiscriminator 128).isSome) :=
  ⟨by decide, by decide,
    constructor_loops_terminate 128 32 1 16 128 (by decide) (by decide)⟩

/-- C7: each `train_ops` updates only its own model's parameters: the
generator loss's `train_ops` leaves the discriminator parameter
vector unchanged, and the discriminator loss's `train_ops` leaves
the generator parameter vector unchanged, for every gradient
function, optimizer update and loss value. -/
theorem train_ops_frame
    (gGrad dGrad : List ℚ → List ℚ → List ℚ)
    (adam : List ℚ → List ℚ → List ℚ)
    (lossVal : List ℚ → List ℚ → ℚ) (s : TrainState) :
    (generatorLoss_train_ops gGrad dGrad adam lossVal s).1.discParams
        = s.discParams
      ∧ (discriminatorLoss_train_ops gGrad dGrad adam lossVal s).1.genParams
        = s.genParams :=
  ⟨rfl, rfl⟩

/-- C9 counterexample: the notebook *does* contain exception
handling — the top-level install guard catches `ImportError` from
`import torchgan` (and runs `pip install` instead of letting the
failure propagate), so a script in which every failure surfaces
unchanged is refuted at that step. -/
theorem notebook_has_exception_handling :
    ¬(noErrorTaxonomy = true ∧ definedFnsRaiseCatchFree = true
      ∧ scriptCatchFree = true) := by decide

/-- C9 amended: the notebook defines no exception class (no original
error taxonomy), no class or function defined in it raises or
catches an exception, and the only exception handling anywhere in
the script is the top-level torchgan import guard. -/
theorem notebook_error_handling_spec :
    noErrorTaxonomy = true ∧ definedFnsRaiseCatchFree = true
      ∧ ((notebookScript.filter fun st => st.hasTry).map ScriptStep.kind
        = [StepKind.importGuard]) := by decide

/-- C10 counterexample: the notebook is not free of control flow
outside the layer-building loops — the device/epochs selection step
is an `if torch.cuda.is_available(): ... else: ...`, the install
guard is a `try`/`except`, and the animation cell runs a
comprehension loop — so the claimed linear-script property is
refuted. -/
theorem notebook_not_control_flow_free :
    ¬(scriptOrdered = true ∧ trainerCalledOnce = true
      ∧ controlFlowOnlyInModelClasses = true) := by decide

/-- C10 amended: the notebook's steps do occur in the claimed order
(dataset, loader, model classes, loss classes, network dictionary,
trainer, plotting) and the trainer is called exactly once, but
besides the model classes' topology loops three steps contain
control flow: the torchgan import guard (`try`/`except`), the
device/epochs selection (`if`/`else`), and the animation plot (a
comprehension loop). -/
theorem notebook_script_order_spec :
    scriptOrdered = true ∧ trainerCalledOnce = true
      ∧ ((notebookScript.filter fun st =>
            !(decide (st.kind = StepKind.modelClassDef))
              && !(stepControlFlowFree st)).map ScriptStep.kind
        = [StepKind.importGuard, StepKind.deviceSelect,
           StepKind.plotStep]) := by decide

/-- Folding layer application from a `none` accumulator stays
`none`. -/
theorem foldl_bind_none (b : List Layer) :
    (b.foldl (fun acc l => acc.bind l.apply) (none : Option Shape)) = none := by
  induction b with
  | nil => rfl
  | cons x xs ih => simpa using ih

/-- Lemma: `applySeq` distributes over list append. -/
theorem applySeq_append (a b : List Layer) (sh : Shape) :
    applySeq (a ++ b) sh = (applySeq a sh).bind fun s2 => applySeq b s2 := by
  unfold applySeq
  rw [List.foldl_append]
  cases h : a.foldl (fun acc l => acc.bind l.apply) (some sh) with
  | none => simp [foldl_bind_none]
  | some s => simp

/-- Unfolding lemma: `Conv2d` on a four-dimensional shape. -/
theorem conv2d_apply (inC outC k s p n c h w : ℕ) :
    Layer.apply (.conv2d inC outC k s p) [n, c, h, w]
      = if c = inC ∧ k ≤ h + 2 * p ∧ k ≤ w + 2 * p ∧ 0 < s
        then some [n, outC, conv2dOut k s p h, conv2dOut k s p w]
        else none := rfl

/-- Unfolding lemma: `ConvTranspose2d` on a four-dimensional
shape. -/
theorem convT2d_apply (inC outC k s p op n c h w : ℕ) :
    Layer.apply (.convTranspose2d inC outC k s p op) [n, c, h, w]
      = if c = inC ∧ 0 < h ∧ 0 < w ∧ 2 * p ≤ (h - 1) * s + k + op
            ∧ 2 * p ≤ (w - 1) * s + k + op
        then some [n, outC, convT2dOut k s p op h, convT2dOut k s p op w]
        else none := rfl

/-- Unfolding lemma: `BatchNorm2d` on a four-dimensional shape. -/
theorem bn2d_apply (f n c h w : ℕ) :
    Layer.apply (.batchNorm2d f) [n, c, h, w]
      = if c = f then some [n, c, h, w] else none := rfl

/-- Unfolding lemma: `LeakyReLU` preserves every shape. -/
theorem lrelu_apply (sh : Shape) : Layer.apply .leakyReLU sh = some sh := by
  cases sh with
  | nil => rfl
  | cons a t => rfl

/-- Unfolding lemma: `Linear` on a two-dimensional shape. -/
theorem linear_apply (inF outF n c : ℕ) :
    Layer.apply (.linear inF outF) [n, c]
      = if c = inF then some [n, outF] else none := rfl

/-- Lemma: `applySeq` on the empty layer list. -/
theorem applySeq_nil (sh : Shape) : applySeq [] sh = some sh := rfl

/-- Lemma: `applySeq` steps through the head layer. -/
theorem applySeq_cons (l : Layer) (ls : List Layer) (sh : Shape) :
    applySeq (l :: ls) sh = (l.apply sh).bind fun s2 => applySeq ls s2 := by
  show (l :: ls).foldl (fun acc la => acc.bind la.apply) (some sh) = _
  cases h : l.apply sh with
  | none => simp [List.foldl_cons, h, foldl_bind_none]
  | some s => simp [List.foldl_cons, h, applySeq]

/-- One decoder block (`ConvTranspose2d(c, 4c, 5, 4, 2, 3)`,
`BatchNorm2d`, `LeakyReLU`) maps `(n, c, m, m)` to
`(n, 4c, 4m, 4m)`. -/
theorem decoder_block_apply (c m n0 : ℕ) (hm : 0 < m) :
    applySeq [.convTranspose2d c (c * 4) 5 4 2 3, .batchNorm2d (c * 4),
        .leakyReLU] [n0, c, m, m]
      = some [n0, c * 4, 4 * m, 4 * m] := by
  have hcond : c = c ∧ 0 < m ∧ 0 < m ∧ 2 * 2 ≤ (m - 1) * 4 + 5 + 3
      ∧ 2 * 2 ≤ (m - 1) * 4 + 5 + 3 :=
    ⟨rfl, hm, hm, by omega, by omega⟩
  have hout : convT2dOut 5 4 2 3 m = 4 * m := by
    unfold convT2dOut
    omega
  rw [applySeq_cons, convT2d_apply, if_pos hcond, hout]
  simp [applySeq_cons, applySeq_nil, bn2d_apply, lrelu_apply]

/-- C6: for every `input_dims`, the discriminator's constructor
builds an MLP — every layer is affine (`Linear`), `BatchNorm1d` or
`LeakyReLU`, the list ends in a `Linear` of output dimension 1 — and
`forward` maps every batch of shape `(n, input_dims)` to a single
logit per example, shape `(n, 1)`. -/
theorem discriminator_is_mlp (input_dims n : ℕ) :
    ∃ d, mkDiscriminator input_dims = some d
      ∧ d.model.all isMLPLayer = true
      ∧ endsInLinear1 d.model = true
      ∧ d.forward [n, input_dims] = some [n, 1] := by
  have hsome : (whileFuel discCond discBody input_dims
      { size := input_dims / 2
        layers := [.linear input_dims (input_dims / 2),
          .leakyReLU] }).isSome := by
    refine whileFuel_isSome discCond discBody (fun _ => True) DiscSt.size
      ?_ ?_ input_dims _ trivial (Nat.div_le_self _ _)
    · intro s _ _; trivial
    · intro s _ hc
      have hs : 16 < s.size := by simpa [discCond] using hc
      exact Nat.div_lt_self (by omega) (by omega)
  obtain ⟨st, hSt⟩ := Option.isSome_iff_exists.mp hsome
  have hinv := whileFuel_inv discCond discBody
    (fun s => applySeq s.layers [n, input_dims] = some [n, s.size]
      ∧ s.layers.all isMLPLayer = true)
    ?_ input_dims _ st ?_ hSt
  case refine_2 =>
    constructor
    · simp [applySeq, Layer.apply]
    · simp [isMLPLayer]
  case refine_1 =>
    intro s _ hP
    obtain ⟨hsh, hml⟩ := hP
    constructor
    · show applySeq (s.layers ++ _) [n, input_dims] = _
      rw [applySeq_append, hsh]
      simp [applySeq, Layer.apply, discBody]
    · show (s.layers ++ _).all isMLPLayer = true
      simp only [List.all_append, hml, Bool.true_and]
      simp [isMLPLayer]
  obtain ⟨⟨hshape, hmlp⟩, _⟩ := hinv
  refine ⟨⟨input_dims, st.layers ++ [.linear st.size 1]⟩, ?_, ?_, ?_, ?_⟩
  · simp [mkDiscriminator, hSt]
  · simp only [List.all_append, hmlp, Bool.true_and]
    simp [isMLPLayer]
  · simp [endsInLinear1, List.getLast?_concat]
  · show applySeq (st.layers ++ _) [n, input_dims] = _
    rw [applySeq_append, hshape]
    simp [applySeq, Layer.apply]

/-- C8: with the notebook's configuration (`encoding_dims = 128`,
`input_size = 32`, `input_channels = 1`, `step_channels = 16`), for
every batch of shape `(n, 1, 32, 32)` in training mode the
reconstruction has exactly the input's shape `(n, 1, 32, 32)` and
the encoding has shape `(n, 128)`: the decoder inverts the encoder's
spatial transformation. -/
theorem default_generator_shapes (n : ℕ) :
    ∃ g, mkGenerator 128 32 1 16 = some g
      ∧ g.forward true [n, 1, 32, 32]
        = some (ForwardResult.pair [n, 1, 32, 32] [n, 128]) := by
  refine ⟨⟨128,
    [.conv2d 1 16 5 2 2, .leakyReLU, .conv2d 16 64 5 4 2, .batchNorm2d 64,
     .leakyReLU, .conv2d 64 256 5 4 2, .batchNorm2d 256, .leakyReLU],
    .linear 256 128, .linear 128 16,
    [.convTranspose2d 16 64 5 4 2 3, .batchNorm2d 64, .leakyReLU,
     .convTranspose2d 64 256 5 4 2 3, .batchNorm2d 256, .leakyReLU,
     .convTranspose2d 256 1 5 2 2 1]⟩, by decide, ?_⟩
  have henc : applySeq
      [Layer.conv2d 1 16 5 2 2, .leakyReLU, .conv2d 16 64 5 4 2,
       .batchNorm2d 64, .leakyReLU, .conv2d 64 256 5 4 2, .batchNorm2d 256,
       .leakyReLU] [n, 1, 32, 32] = some [n, 256, 1, 1] := by
    simp [applySeq_cons, applySeq_nil, conv2d_apply, bn2d_apply,
      lrelu_apply, conv2dOut]
  have hdec : applySeq
      [Layer.convTranspose2d 16 64 5 4 2 3, .batchNorm2d 64, .leakyReLU,
       .convTranspose2d 64 256 5 4 2 3, .batchNorm2d 256, .leakyReLU,
       .convTranspose2d 256 1 5 2 2 1] [n, 16, 1, 1]
      = some [n, 1, 32, 32] := by
    simp [applySeq_cons, applySeq_nil, convT2d_apply, bn2d_apply,
      lrelu_apply, convT2dOut]
  have hview2 : view2 256 [n, 256, 1, 1] = some [n, 256] := by
    simp [view2, numel, Nat.dvd_mul_left, Nat.mul_div_cancel]
  have hview4 : view4 16 [n, 16] = some [n, 16, 1, 1] := by
    simp [view4, numel, Nat.dvd_mul_left, Nat.mul_div_cancel]
  show AdversarialAutoencoderGenerator.forward _ true [n, 1, 32, 32] = _
  simp [AdversarialAutoencoderGenerator.forward,
    AdversarialAutoencoderGenerator.sample, henc, hview2, hview4, hdec,
    linear_apply, size1]

/-- C3: in training mode the generator both encodes and decodes: for
every configuration whose encoder maps the input batch
`(n, input_channels, input_size, input_size)` to a `(n, ch, 1, 1)`
feature map matching `encoder_fc`'s input features, `forward`
returns the pair `(sample(encoding), encoding)` where the encoding —
the encoder output flattened and passed through `encoder_fc` — is a
latent batch of shape `(n, encoding_dims)`, and the reconstruction
is exactly `sample` applied to that encoding. -/
theorem generator_forward_training
    (encoding_dims input_size input_channels step_channels n ch : ℕ)
    (g : AdversarialAutoencoderGenerator)
    (hg : mkGenerator encoding_dims input_size input_channels step_channels
      = some g)
    (hsc : 0 < step_channels) (hch : 0 < ch)
    (henc : applySeq g.encoder [n, input_channels, input_size, input_size]
      = some [n, ch, 1, 1])
    (hfc : g.encoder_fc = Layer.linear ch encoding_dims) :
    ∃ recon, g.forward true [n, input_channels, input_size, input_size]
        = some (ForwardResult.pair recon [n, encoding_dims])
      ∧ g.sample [n, encoding_dims] = some recon := by
  unfold mkGenerator at hg
  obtain ⟨encSt, hE, hg2⟩ := Option.bind_eq_some.mp hg
  obtain ⟨decSt, hD, hg3⟩ := Option.map_eq_some'.mp hg2
  have hgdfc : g.decoder_fc = .linear encoding_dims step_channels := by
    rw [← hg3]
  have hgdec : g.decoder = decSt.layers
      ++ [.convTranspose2d decSt.channels input_channels 5 2 2 1] := by
    rw [← hg3]
  have hinv := whileFuel_inv (decCond input_size) decBody
    (fun s => 0 < s.channels ∧ ∃ m, 0 < m
      ∧ applySeq s.layers [n, step_channels, 1, 1]
        = some [n, s.channels, m, m])
    ?_ input_size _ decSt ?_ hD
  case refine_2 => exact ⟨hsc, 1, by omega, by rw [applySeq_nil]⟩
  case refine_1 =>
    intro s _ hP
    obtain ⟨hc0, m, hm, hsq⟩ := hP
    refine ⟨by simp [decBody]; omega, 4 * m, by omega, ?_⟩
    show applySeq (s.layers ++ _) _ = _
    rw [applySeq_append, hsq]
    show applySeq _ _ = some [n, (decBody s).channels, 4 * m, 4 * m]
    have hblock := decoder_block_apply s.channels m n hm
    rw [hblock]
    simp [decBody]
  obtain ⟨hdc0, m, hm, hsq⟩ := hinv.1
  have hview2 : view2 ch [n, ch, 1, 1] = some [n, ch] := by
    have hdiv : n * ch / ch = n := Nat.mul_div_cancel n hch
    simp [view2, numel, hch, Nat.dvd_mul_left, hdiv]
  have hfcapp : Layer.apply (.linear ch encoding_dims) [n, ch]
      = some [n, encoding_dims] := by
    simp [linear_apply]
  have hsample : g.sample [n, encoding_dims]
      = some [n, input_channels, convT2dOut 5 2 2 1 m,
          convT2dOut 5 2 2 1 m] := by
    unfold AdversarialAutoencoderGenerator.sample
    rw [hgdfc]
    have h1 : Layer.apply (.linear encoding_dims step_channels)
        [n, encoding_dims] = some [n, step_channels] := by
      simp [linear_apply]
    rw [h1]
    simp only [Option.some_bind]
    have hs1 : size1 [n, step_channels] = some step_channels := rfl
    rw [hs1]
    simp only [Option.some_bind]
    have hv4 : view4 step_channels [n, step_channels]
        = some [n, step_channels, 1, 1] := by
      have hdiv : n * step_channels / step_channels = n :=
        Nat.mul_div_cancel n hsc
      simp [view4, numel, hsc, Nat.dvd_mul_left, hdiv]
    rw [hv4]
    simp only [Option.some_bind]
    rw [hgdec, applySeq_append, hsq]
    simp only [Option.some_bind]
    rw [applySeq_cons, convT2d_apply,
      if_pos ⟨rfl, hm, hm, by omega, by omega⟩]
    simp [applySeq_nil]
  refine ⟨_, ?_, hsample⟩
  unfold AdversarialAutoencoderGenerator.forward
  rw [if_pos rfl, henc]
  simp only [Option.some_bind]
  rw [hfc]
  simp only [mul_one]
  rw [hview2]
  simp only [Option.some_bind]
  rw [hfcapp]
  simp only [Option.some_bind]
  rw [hsample]
  rfl

/-- Witness for C3 at the notebook's configuration with a batch of
two images. -/
theorem generator_forward_training_witness :
    ∃ recon,
      AdversarialAutoencoderGenerator.forward
          ⟨128,
            [.conv2d 1 16 5 2 2, .leakyReLU, .conv2d 16 64 5 4 2,
             .batchNorm2d 64, .leakyReLU, .conv2d 64 256 5 4 2,
             .batchNorm2d 256, .leakyReLU],
            .linear 256 128, .linear 128 16,
            [.convTranspose2d 16 64 5 4 2 3, .batchNorm2d 64, .leakyReLU,
             .convTranspose2d 64 256 5 4 2 3, .batchNorm2d 256, .leakyReLU,
             .convTranspose2d 256 1 5 2 2 1]⟩ true [2, 1, 32, 32]
        = some (ForwardResult.pair recon [2, 128])
      ∧ AdversarialAutoencoderGenerator.sample
          ⟨128,
            [.conv2d 1 16 5 2 2, .leakyReLU, .conv2d 16 64 5 4 2,
             .batchNorm2d 64, .leakyReLU, .conv2d 64 256 5 4 2,
             .batchNorm2d 256, .leakyReLU],
            .linear 256 128, .linear 128 16,
            [.convTranspose2d 16 64 5 4 2 3, .batchNorm2d 64, .leakyReLU,
             .convTranspose2d 64 256 5 4 2 3, .batchNorm2d 256, .leakyReLU,
             .convTranspose2d 256 1 5 2 2 1]⟩ [2, 128] = some recon :=
  generator_forward_training 128 32 1 16 2 256 _
    (by decide) (by decide) (by decide) (by decide) (by decide)

end AAE
